import Mathlib

/-!
Verification of the juju/charmrepo client: a shallow embedding of the
multipart upload machinery, archive fetching and the local disk cache
(csclient/csclient.go and charmstore.go), with theorems settling the
behavioural claims about part sizing, retries, resumption, header
validation and cache reuse.

Machine integers (Go int64) are modelled as Int; Go integer division
truncates towards zero, which is Int.tdiv.
-/

namespace Charmrepo

/-! ## Data model: upload sessions (csclient/params) -/

/-- One part of a multipart upload session, as recorded by the store
(params.Part: Hash, Offset, Size, Complete). -/
structure Part where
  hash : String
  offset : Int
  size : Int
  complete : Bool
deriving Repr, DecidableEq

/-- Modelled from the spec: params.Part.Valid lives in csclient/params,
which is not among the provided sources. The spec describes the
look-ahead as finding the next already-completed part after the current
index, so a part is taken to be valid when it is recorded complete. -/
def Part.valid (p : Part) : Bool :=
  p.complete

/-- The body of the upload session response
(params.UploadInfoResponse, fields as used by csclient.go: UploadId,
Expires is irrelevant here, MinPartSize, MaxPartSize, MaxParts, Parts).
The nested Parts.Parts slice is flattened into a list. -/
structure UploadInfoResponse where
  uploadId : String
  minPartSize : Int
  maxPartSize : Int
  maxParts : Nat
  parts : List Part
deriving Repr, DecidableEq

/-- The multipart fields of csclient.go uploadInfo: the total payload
size, the session response and the computed preferred part size. -/
structure UploadInfo where
  size : Int
  resp : UploadInfoResponse
  preferredPartSize : Int
deriving Repr, DecidableEq

/-! ## choosePartRange (csclient.go lines 461-510) -/

/-- Result of choosePartRange: the Go function returns a byte range
(p0, p1) together with an error that is nil, errFinished,
errAlreadyUploaded or a fatal message. -/
inductive ChooseResult where
  | finished (p0 p1 : Int)
  | alreadyUploaded (p0 p1 : Int)
  | range (p0 p1 : Int)
  | err (msg : String)
deriving Repr, DecidableEq

/-- The look-ahead loop of choosePartRange: scan the parts from index
i upwards and return the first valid one as (index, offset). The Go
loop leaves nextUploadedPart = -1 (here: none) when no part is valid. -/
def findNextUploaded : List Part → Nat → Option (Nat × Int)
  | [], _ => none
  | p :: rest, i => if p.valid then some (i, p.offset) else findNextUploaded rest (i + 1)

/-- Whether the session records the part at the given index as complete:
the guard of the skip branch of choosePartRange
(partIndex < len(parts) and parts[partIndex].Complete). -/
def partMarkedComplete (parts : List Part) (i : Nat) : Bool :=
  match parts[i]? with
  | some p => p.complete
  | none => false

/-- The part of choosePartRange after the completed-part skip branch
(csclient.go lines 474-509): look ahead for the next uploaded part and
size this part accordingly. -/
def choosePartRangeLookahead (partIndex : Nat) (offset : Int) (info : UploadInfo) : ChooseResult :=
  match findNextUploaded (info.resp.parts.drop (partIndex + 1)) (partIndex + 1) with
  | some (j, nextOffset) =>
    if j = partIndex + 1 then
      -- Exactly one part to fill in.
      if nextOffset - offset < info.resp.minPartSize then
        ChooseResult.err "remaining part is too small"
      else if info.resp.maxPartSize < nextOffset - offset then
        ChooseResult.err "remaining part is too large"
      else
        ChooseResult.range offset nextOffset
    else
      -- An already-uploaded part more than one away: divide equally,
      -- with Go int64 division truncating towards zero (Int.tdiv).
      ChooseResult.range offset (offset + Int.tdiv (nextOffset - offset) ((j - partIndex : Nat) : Int))
  | none =>
    -- No next part, so choose the preferred size, clamped to the end.
    ChooseResult.range offset
      (if info.size < offset + info.preferredPartSize then info.size
       else offset + info.preferredPartSize)

/-- choosePartRange (csclient.go lines 461-510): the file range to use
for the part with the given index, given the running offset. -/
def choosePartRange (partIndex : Nat) (offset : Int) (info : UploadInfo) : ChooseResult :=
  if info.size ≤ offset then
    ChooseResult.finished info.size info.size
  else
    match info.resp.parts[partIndex]? with
    | some part =>
      if part.complete then
        if part.offset ≠ offset then
          ChooseResult.err ("offset mismatch at part " ++ toString partIndex ++
            " (want " ++ toString offset ++ " got " ++ toString part.offset ++ ")")
        else
          ChooseResult.alreadyUploaded offset (offset + part.size)
      else
        choosePartRangeLookahead partIndex offset info
    | none => choosePartRangeLookahead partIndex offset info

/-! ## The part-upload loop (uploadParts, csclient.go lines 400-451) -/

/-- Externally observable actions of an upload: progress notifications
and network requests. -/
inductive Event where
  | started (uploadId : String)
  | transferred (total : Int)
  | partUpload (index : Nat) (p0 p1 : Int)
  | finalizing
  | finishUploadPut (uploadId : String)
  | postResource
deriving Repr, DecidableEq

/-- Whether an event is a network request uploading a part. -/
def Event.isPartUpload : Event → Bool
  | .partUpload _ _ _ => true
  | _ => false

/-- The loop of uploadParts (csclient.go lines 403-435), fuel-indexed.
The store side of each call to uploadPart is abstracted as an oracle
upr from part index to its overall outcome (hash or error); the network
request itself is recorded as a partUpload event. The parts accumulator
mirrors the Go code, which overwrites index i when it exists and
appends otherwise; choosePartRange only ever reads indices at or above
the current one, so it reads the original session parts. -/
def uploadPartsLoop (upr : Nat → Except String String) (info : UploadInfo) :
    Nat → Nat → Int → List Part → Except String (List Part) × List Event
  | 0, _, _, _ => (Except.error "out of fuel", [])
  | fuel + 1, i, offset, parts =>
    if info.size ≤ offset then
      (Except.ok parts, [])
    else
      match choosePartRange i offset info with
      | ChooseResult.finished _ _ => (Except.ok parts, [])
      | ChooseResult.alreadyUploaded _ p1 =>
        let r := uploadPartsLoop upr info fuel (i + 1) p1 parts
        (r.1, Event.transferred p1 :: r.2)
      | ChooseResult.err msg => (Except.error msg, [])
      | ChooseResult.range p0 p1 =>
        match upr i with
        | Except.error e => (Except.error e, [Event.partUpload i p0 p1])
        | Except.ok hash =>
          let part : Part := { hash := hash, offset := 0, size := 0, complete := true }
          let parts2 := if i < parts.length then parts.set i part else parts ++ [part]
          let r := uploadPartsLoop upr info fuel (i + 1) p1 parts2
          (r.1, Event.partUpload i p0 p1 :: r.2)

/-- uploadParts (csclient.go lines 400-451): run the loop from index 0
and offset 0 over the session parts, then finalize (Finalizing
notification, PUT of the parts list, POST creating the resource). The
responses to the two finalizing requests are oracles. -/
def uploadParts (upr : Nat → Except String String) (finishResp : Except String Unit)
    (postResp : Except String Int) (info : UploadInfo) (fuel : Nat) :
    Except String Int × List Event :=
  match uploadPartsLoop upr info fuel 0 0 info.resp.parts with
  | (Except.error e, evs) => (Except.error e, evs)
  | (Except.ok _, evs) =>
    match finishResp with
    | Except.error e =>
      (Except.error e, evs ++ [Event.finalizing, Event.finishUploadPut info.resp.uploadId])
    | Except.ok _ =>
      match postResp with
      | Except.error e =>
        (Except.error e,
          evs ++ [Event.finalizing, Event.finishUploadPut info.resp.uploadId, Event.postResource])
      | Except.ok rev =>
        (Except.ok rev,
          evs ++ [Event.finalizing, Event.finishUploadPut info.resp.uploadId, Event.postResource])

/-! ## Single-part retry loop (uploadPart, csclient.go lines 555-587) -/

/-- The outcome of one PUT attempt for a part: success, an error whose
cause is a structured charm store API error (isAPIError), or any other
(soft) error. -/
inductive AttemptOutcome where
  | success
  | apiError (msg : String)
  | softError (msg : String)
deriving Repr, DecidableEq

/-- The soft-error message of an attempt outcome, if any. -/
def AttemptOutcome.softMsg : AttemptOutcome → Option String
  | .softError m => some m
  | _ => none

/-- Whether an attempt outcome is a soft (retried) error. -/
def AttemptOutcome.isSoft : AttemptOutcome → Bool
  | .softError _ => true
  | _ => false

/-- The retry loop of uploadPart (csclient.go lines 563-586) over the
list of outcomes of the successive attempts, threading lastError.
Returns the overall result, the messages passed to progress.Error in
order, and the number of attempts made. On success the precomputed
part hash is returned; when the outcome list is exhausted (ten
attempts in the caller) the last error is wrapped with the
too-many-attempts message, errgo.Notef style. -/
def uploadPartAttemptLoop (hash : String) :
    List AttemptOutcome → Option String → Except String String × List String × Nat
  | [], lastError =>
    (Except.error ("too many attempts; last error: " ++ lastError.getD ""), [], 0)
  | o :: rest, _lastError =>
    match o with
    | AttemptOutcome.success => (Except.ok hash, [], 1)
    | AttemptOutcome.apiError m => (Except.error m, [], 1)
    | AttemptOutcome.softError m =>
      let r := uploadPartAttemptLoop hash rest (some m)
      (r.1, m :: r.2.1, r.2.2 + 1)

/-- uploadPart (csclient.go lines 555-587): the hash of the section is
computed up front (abstracted as a given string) and then at most ten
attempts are made. -/
def uploadPartModel (hash : String) (outcomes : Nat → AttemptOutcome) :
    Except String String × List String × Nat :=
  uploadPartAttemptLoop hash ((List.range 10).map outcomes) none

/-! ## Session creation and resumption
(uploadMultipartResource, csclient.go lines 362-398) -/

/-- The error cause of a failed session request: the code branches on
whether errgo.Cause is params.ErrNotFound. -/
inductive StoreErr where
  | notFound
  | other (msg : String)
deriving Repr, DecidableEq

/-- Errors of the multipart upload path, keeping the causes the code
distinguishes: the ErrUploadNotFound cause, the session id mismatch,
the resource-too-big rejection (carrying the effective maximum
MaxPartSize * MaxParts in bytes, which the message renders in decimal
GB), and everything else. -/
inductive UploadError where
  | uploadNotFound
  | uploadIdMismatch (got want : String)
  | resourceTooBig (allowedBytes : Int)
  | other (msg : String)
deriving Repr, DecidableEq

/-- The store responses and oracles one multipart upload consumes. -/
structure MultipartEnv where
  sessionResp : Except StoreErr UploadInfoResponse
  upr : Nat → Except String String
  finishResp : Except String Unit
  postResp : Except String Int
  singlePartResp : Except String Int
  fuel : Nat

/-- The part-size preflight of uploadMultipartResource (csclient.go
lines 385-392): preferred part size is the rounded-up quotient of the
total size by MaxParts; larger than MaxPartSize is a fatal rejection;
smaller than MinPartSize is raised to MinPartSize. -/
def multipartPreflight (size : Int) (resp : UploadInfoResponse) : Except UploadError UploadInfo :=
  let preferred := Int.tdiv (size + (resp.maxParts : Int) - 1) (resp.maxParts : Int)
  if resp.maxPartSize < preferred then
    Except.error (UploadError.resourceTooBig (resp.maxPartSize * (resp.maxParts : Int)))
  else
    Except.ok
      { size := size
        resp := resp
        preferredPartSize := if preferred < resp.minPartSize then resp.minPartSize else preferred }

/-- The shared tail of uploadMultipartResource once a session response
is in hand (csclient.go lines 383-397): notify Start, run the
preflight, then upload the parts. -/
def uploadMultipartBody (size : Int) (resp : UploadInfoResponse) (env : MultipartEnv) :
    Except UploadError Int × List Event :=
  match multipartPreflight size resp with
  | Except.error e => (Except.error e, [Event.started resp.uploadId])
  | Except.ok info =>
    let r := uploadParts env.upr env.finishResp env.postResp info env.fuel
    (Except.mapError UploadError.other r.1, Event.started resp.uploadId :: r.2)

/-- uploadSinglePartResource (csclient.go lines 318-347), abstracted:
Start is notified with an empty upload id and the store response
decides the result. -/
def uploadSinglePart (env : MultipartEnv) : Except UploadError Int × List Event :=
  (Except.mapError UploadError.other env.singlePartResp, [Event.started ""])

/-- uploadMultipartResource (csclient.go lines 362-398): create the
session with a POST when uploadId is empty (falling back to the
single-part path when the server does not know the endpoint), or
resume it with a GET, translating a not-found cause into
ErrUploadNotFound and rejecting a response whose upload id differs
from the requested one. -/
def uploadMultipartResource (uploadId : String) (size : Int) (env : MultipartEnv) :
    Except UploadError Int × List Event :=
  if uploadId = "" then
    match env.sessionResp with
    | Except.error StoreErr.notFound => uploadSinglePart env
    | Except.error (StoreErr.other m) => (Except.error (UploadError.other m), [])
    | Except.ok resp => uploadMultipartBody size resp env
  else
    match env.sessionResp with
    | Except.error StoreErr.notFound => (Except.error UploadError.uploadNotFound, [])
    | Except.error (StoreErr.other m) => (Except.error (UploadError.other m), [])
    | Except.ok resp =>
      if resp.uploadId ≠ uploadId then
        (Except.error (UploadError.uploadIdMismatch resp.uploadId uploadId), [])
      else
        uploadMultipartBody size resp env

/-- ResumeUploadResource (csclient.go lines 300-316): payloads at or
above the multipart threshold go through the multipart path, smaller
ones through the single-part path. -/
def resumeUploadResource (minMultipartUploadSize : Int) (uploadId : String) (size : Int)
    (env : MultipartEnv) : Except UploadError Int × List Event :=
  if minMultipartUploadSize ≤ size then uploadMultipartResource uploadId size env
  else uploadSinglePart env

/-! ## GetArchive (csclient.go lines 142-201) -/

/-- The part of a charm.URL that GetArchive inspects: parsing is an
external collaborator (gopkg.in/juju/charm.v6), so a parsed id is kept
abstract as its revision (-1 meaning not fully qualified) plus its
rendered path. -/
structure CharmURL where
  revision : Int
  path : String
deriving Repr, DecidableEq

/-- An HTTP 200 response to the archive GET as GetArchive inspects it:
the two headers (http.Header.Get returns the empty string when a
header is missing) and the content length (-1 when unknown). -/
structure ArchiveResponse where
  entityIdHeader : String
  contentHashHeader : String
  contentLength : Int
deriving Repr, DecidableEq

/-- A successful GetArchive hands the caller the still-open body along
with the entity id, hash and size; a failure is a message. -/
inductive GetArchiveResult where
  | ok (eid : CharmURL) (hash : String) (size : Int)
  | fail (msg : String)
deriving Repr, DecidableEq

/-- Whether a GetArchiveResult is a failure. -/
def GetArchiveResult.isFail : GetArchiveResult → Bool
  | .fail _ => true
  | _ => false

/-- The response-validation tail of GetArchive (csclient.go lines
171-200), parameterised by the external charm.ParseURL. Returns the
result paired with whether resp.Body.Close() was called before
returning: a stream is handed over exactly when the result is ok. -/
def getArchive (parseURL : String → Option CharmURL) (resp : ArchiveResponse) :
    GetArchiveResult × Bool :=
  let entityId := resp.entityIdHeader
  if entityId = "" then
    (GetArchiveResult.fail "no entity id header found in response", true)
  else
    match parseURL entityId with
    | none => (GetArchiveResult.fail "invalid entity id found in response", true)
    | some eid =>
      if eid.revision = -1 then
        (GetArchiveResult.fail
          ("archive get returned not fully qualified entity id " ++ eid.path), true)
      else if resp.contentHashHeader = "" then
        (GetArchiveResult.fail "no hash header found in response", true)
      else if resp.contentLength < 0 then
        (GetArchiveResult.fail "no content length found in response", true)
      else
        (GetArchiveResult.ok eid resp.contentHashHeader resp.contentLength, false)

/-! ## The local disk cache (charmstore.go lines 128-206) -/

/-- A file on disk: its bytes and its modification time. -/
structure FileData where
  content : List Nat
  mtime : Nat
deriving Repr, DecidableEq

/-- What one archivePath call did: the returned value, the file at the
deterministic target path afterwards, whether a temporary download
file was created, and whether the atomic rename was performed. -/
structure ArchivePathOutcome where
  result : Except String Unit
  target : Option FileData
  tempCreated : Bool
  renamed : Bool
deriving Repr

/-- verifyHash384AndSize (charmstore.go lines 186-206): opening a
missing file fails, otherwise the size and the SHA-384 digest of the
bytes on disk are compared with the expected values. The hash is
abstracted as a function from bytes to its hex rendering, the same
function the download verification uses. -/
def verifyHash384AndSize (sha384 : List Nat → String) (file : Option FileData)
    (expectHash : String) (expectSize : Int) : Bool :=
  match file with
  | none => false
  | some f => (f.content.length : Int) = expectSize && sha384 f.content = expectHash

/-- The caching tail of archivePath (charmstore.go lines 151-184),
after the archive stream was obtained: reuse the existing file when it
verifies; otherwise copy the downloaded body into a fresh temporary
file, verify size then hash, and only on success rename the temporary
file over the target. The target file of the initial state is kept
untouched on every other path. -/
def archivePath (sha384 : List Nat → String) (target : Option FileData)
    (expectHash : String) (expectSize : Int) (body : List Nat) (now : Nat) :
    ArchivePathOutcome :=
  if verifyHash384AndSize sha384 target expectHash expectSize then
    { result := Except.ok (), target := target, tempCreated := false, renamed := false }
  else if (body.length : Int) ≠ expectSize then
    { result := Except.error "size mismatch; network corruption?", target := target,
      tempCreated := true, renamed := false }
  else if sha384 body ≠ expectHash then
    { result := Except.error "hash mismatch; network corruption?", target := target,
      tempCreated := true, renamed := false }
  else
    { result := Except.ok (), target := some { content := body, mtime := now },
      tempCreated := true, renamed := true }

/-! ## GetResource (csclient.go lines 617-651) -/

/-- The response to the resource GET as GetResource inspects it: only
the content-hash header matters (empty when missing). -/
structure ResourceResponse where
  contentHashHeader : String
deriving Repr, DecidableEq

/-- What one GetResource call did: the result (the hash of the open
stream handed to the caller, or an error message), the paths of the
GET requests issued, and whether the response body was closed. -/
structure GetResourceOutcome where
  result : Except String String
  requests : List String
  bodyClosed : Bool
deriving Repr

/-- GetResource (csclient.go lines 617-651): a negative revision is
rejected up front; otherwise a GET is issued on the resource sub-path
with an explicit revision segment, and a 200 response without the
content-hash header is an error on which the deferred close fires. -/
def getResource (idPath name : String) (revision : Int) (resp : ResourceResponse) :
    GetResourceOutcome :=
  if revision < 0 then
    { result := Except.error "revision must be a non-negative integer",
      requests := [], bodyClosed := false }
  else
    let url := "/" ++ idPath ++ "/resource/" ++ name ++
      (if 0 ≤ revision then "/" ++ toString revision else "")
    if resp.contentHashHeader = "" then
      { result := Except.error "no hash header found in response",
        requests := [url], bodyClosed := true }
    else
      { result := Except.ok resp.contentHashHeader,
        requests := [url], bodyClosed := false }

/-! ## CharmStore.Get and CharmStore.GetBundle
(charmstore.go lines 96-126) -/

/-- How a call to CharmStore.Get or CharmStore.GetBundle terminates:
a Go panic, an error return, or success. -/
inductive GetOutcome where
  | panicked (msg : String)
  | errored (msg : String)
  | ok
deriving Repr, DecidableEq

/-- Whether a GetOutcome is a panic. -/
def GetOutcome.isPanic : GetOutcome → Bool
  | .panicked _ => true
  | _ => false

/-- CharmStore.Get (charmstore.go lines 97-110): panic when the
package-level CacheDir is empty, reject bundle URLs, then defer to
archivePath and the archive reader, both abstracted as an oracle. -/
def charmStoreGet (cacheDir : String) (series : String)
    (archiveResult : Except String Unit) : GetOutcome :=
  if cacheDir = "" then
    GetOutcome.panicked "charm cache directory path is empty"
  else if series = "bundle" then
    GetOutcome.errored "expected a charm URL, got bundle URL"
  else
    match archiveResult with
    | Except.error e => GetOutcome.errored e
    | Except.ok _ => GetOutcome.ok

/-- CharmStore.GetBundle (charmstore.go lines 113-126): panic when the
package-level CacheDir is empty, reject non-bundle URLs, then defer to
archivePath and the bundle reader, both abstracted as an oracle. -/
def charmStoreGetBundle (cacheDir : String) (series : String)
    (archiveResult : Except String Unit) : GetOutcome :=
  if cacheDir = "" then
    GetOutcome.panicked "charm cache directory path is empty"
  else if series ≠ "bundle" then
    GetOutcome.errored "expected a bundle URL, got charm URL"
  else
    match archiveResult with
    | Except.error e => GetOutcome.errored e
    | Except.ok _ => GetOutcome.ok

/-! ## Concrete instances the witnesses evaluate the model on -/

/-- A resumed session for the gap-sizing scenario: part 1 is complete
at offset 3 while MinPartSize is 10, so the gap before it is too
small. -/
def exInfoGap : UploadInfo :=
  { size := 20
    resp := { uploadId := "u", minPartSize := 10, maxPartSize := 100, maxParts := 4,
              parts := [{ hash := "", offset := 0, size := 0, complete := false },
                        { hash := "h1", offset := 3, size := 5, complete := true }] }
    preferredPartSize := 5 }

/-- A resumed session whose part 0 is recorded complete with size 7. -/
def exInfoSkip : UploadInfo :=
  { size := 10
    resp := { uploadId := "u", minPartSize := 1, maxPartSize := 100, maxParts := 4,
              parts := [{ hash := "c", offset := 0, size := 7, complete := true }] }
    preferredPartSize := 5 }

/-- A session whose limits make a 100-byte payload oversized:
ceil(100 / 10) = 10 exceeds MaxPartSize 5. -/
def exRespBig : UploadInfoResponse :=
  { uploadId := "u2", minPartSize := 1, maxPartSize := 5, maxParts := 10, parts := [] }

/-- An environment answering the session request with exRespBig. -/
def exEnvBig : MultipartEnv :=
  { sessionResp := Except.ok exRespBig, upr := fun _ => Except.ok "h",
    finishResp := Except.ok (), postResp := Except.ok 1,
    singlePartResp := Except.ok 1, fuel := 100 }

/-- An environment whose session GET answers not-found. -/
def exEnvNotFound : MultipartEnv :=
  { sessionResp := Except.error StoreErr.notFound, upr := fun _ => Except.ok "h",
    finishResp := Except.ok (), postResp := Except.ok 1,
    singlePartResp := Except.ok 1, fuel := 100 }

/-- An environment whose session GET answers with a different upload
id than the one requested. -/
def exEnvWrongId : MultipartEnv :=
  { sessionResp := Except.ok { uploadId := "zzz", minPartSize := 1, maxPartSize := 10,
                               maxParts := 4, parts := [] }
    upr := fun _ => Except.ok "h", finishResp := Except.ok (), postResp := Except.ok 1,
    singlePartResp := Except.ok 1, fuel := 100 }

/-- Attempt outcomes for one part: a soft failure, then a definitive
API rejection. -/
def exOutcomesApi : Nat → AttemptOutcome := fun k =>
  if k = 0 then AttemptOutcome.softError "boom"
  else if k = 1 then AttemptOutcome.apiError "denied"
  else AttemptOutcome.success

/-- A parse function recognising one fully-qualified id. -/
def exParse : String → Option CharmURL := fun s =>
  if s = "cs:foo-1" then some { revision := 1, path := s } else none

/-- A stand-in for the SHA-384 hex digest in the cache model. -/
def exHashFn : List Nat → String := fun bs =>
  "sha" ++ toString bs.length ++ "-" ++ toString bs.sum

/-- The cached file the reuse witness finds on disk. -/
def exFile : FileData := { content := [1, 2, 3], mtime := 42 }

/-- An archive response with unknown content length. -/
def exRespNoLen : ArchiveResponse :=
  { entityIdHeader := "cs:foo-1", contentHashHeader := "abc", contentLength := -1 }

/-! ## Theorems -/

/-- C10: calling CharmStore.Get or CharmStore.GetBundle while the
package-level CacheDir variable is empty panics with the message
"charm cache directory path is empty" rather than returning an error;
with a non-empty CacheDir neither operation ever panics. -/
theorem charmStore_empty_cachedir_panics (cacheDir series : String)
    (archiveResult : Except String Unit) :
    (cacheDir = "" →
      charmStoreGet cacheDir series archiveResult =
        GetOutcome.panicked "charm cache directory path is empty" ∧
      charmStoreGetBundle cacheDir series archiveResult =
        GetOutcome.panicked "charm cache directory path is empty") ∧
    (cacheDir ≠ "" →
      (charmStoreGet cacheDir series archiveResult).isPanic = false ∧
      (charmStoreGetBundle cacheDir series archiveResult).isPanic = false) := by
  constructor
  · intro h
    constructor <;> simp [charmStoreGet, charmStoreGetBundle, h]
  · intro h
    constructor <;>
      · simp only [charmStoreGet, charmStoreGetBundle, if_neg h]
        split
        · rfl
        · split <;> rfl

/-- Witness for C10 at CacheDir = "" and at CacheDir = "/tmp/cache". -/
theorem charmStore_empty_cachedir_panics_witness :
    charmStoreGet "" "xenial" (Except.ok ()) =
      GetOutcome.panicked "charm cache directory path is empty" ∧
    (charmStoreGet "/tmp/cache" "xenial" (Except.ok ())).isPanic = false :=
  ⟨(charmStore_empty_cachedir_panics "" "xenial" (Except.ok ())).1 rfl |>.1,
   (charmStore_empty_cachedir_panics "/tmp/cache" "xenial" (Except.ok ())).2
     (by decide) |>.1⟩

/-- C7: when a file already exists at the cache path and its hash and
size equal the expected values fetched from the store, archivePath
returns with the existing file untouched (same contents and mtime) and
without creating a temporary file or renaming anything. -/
theorem archivePath_reuses_matching_cache_file (sha384 : List Nat → String) (f : FileData)
    (expectHash : String) (expectSize : Int) (body : List Nat) (now : Nat)
    (hsize : (f.content.length : Int) = expectSize)
    (hhash : sha384 f.content = expectHash) :
    archivePath sha384 (some f) expectHash expectSize body now =
      { result := Except.ok (), target := some f, tempCreated := false, renamed := false } := by
  simp [archivePath, verifyHash384AndSize, hsize, hhash]

/-- Witness for C7: a cached [1, 2, 3] file is reused untouched. -/
theorem archivePath_reuses_matching_cache_file_witness :
    archivePath exHashFn (some exFile) (exHashFn [1, 2, 3]) 3 [9, 9, 9, 9] 77 =
      { result := Except.ok (), target := some exFile,
        tempCreated := false, renamed := false } :=
  archivePath_reuses_matching_cache_file exHashFn exFile (exHashFn [1, 2, 3]) 3
    [9, 9, 9, 9] 77 (by decide) rfl

/-- C8: when the cached file does not verify and the downloaded bytes
fail verification (wrong size or wrong digest), archivePath returns
the "mismatch; network corruption?" error, never performs the rename,
creates only the temporary file, and leaves the target path exactly as
it was. -/
theorem archivePath_mismatch_leaves_target (sha384 : List Nat → String)
    (target : Option FileData) (expectHash : String) (expectSize : Int)
    (body : List Nat) (now : Nat)
    (hmiss : verifyHash384AndSize sha384 target expectHash expectSize = false)
    (hbad : (body.length : Int) ≠ expectSize ∨ sha384 body ≠ expectHash) :
    ((archivePath sha384 target expectHash expectSize body now).result =
        Except.error "size mismatch; network corruption?" ∨
      (archivePath sha384 target expectHash expectSize body now).result =
        Except.error "hash mismatch; network corruption?") ∧
    (archivePath sha384 target expectHash expectSize body now).renamed = false ∧
    (archivePath sha384 target expectHash expectSize body now).tempCreated = true ∧
    (archivePath sha384 target expectHash expectSize body now).target = target := by
  unfold archivePath
  simp only [hmiss, Bool.false_eq_true, if_false]
  rcases hbad with h | h
  · simp [h]
  · by_cases hs : (body.length : Int) = expectSize
    · simp [hs, h]
    · simp [hs]

/-- Witness for C8: an empty cache and a downloaded body of the wrong
size give the size-mismatch error and leave the target absent. -/
theorem archivePath_mismatch_leaves_target_witness :
    ((archivePath exHashFn none "deadbeef" 4 [1, 2, 3] 77).result =
        Except.error "size mismatch; network corruption?" ∨
      (archivePath exHashFn none "deadbeef" 4 [1, 2, 3] 77).result =
        Except.error "hash mismatch; network corruption?") ∧
    (archivePath exHashFn none "deadbeef" 4 [1, 2, 3] 77).renamed = false ∧
    (archivePath exHashFn none "deadbeef" 4 [1, 2, 3] 77).tempCreated = true ∧
    (archivePath exHashFn none "deadbeef" 4 [1, 2, 3] 77).target = none :=
  archivePath_mismatch_leaves_target exHashFn none "deadbeef" 4 [1, 2, 3] 77 rfl
    (Or.inl (by decide))

/-- C6: GetArchive fails whenever the entity-id header is missing, the
id does not parse, the parsed id is not fully qualified (revision -1),
the content-hash header is missing, or the content length is negative;
in every such case the response body is closed before returning, so a
stream is never handed out together with an error. -/
theorem getArchive_rejects_bad_headers (parseURL : String → Option CharmURL)
    (resp : ArchiveResponse)
    (hbad : resp.entityIdHeader = ""
      ∨ parseURL resp.entityIdHeader = none
      ∨ (∃ eid, parseURL resp.entityIdHeader = some eid ∧ eid.revision = -1)
      ∨ resp.contentHashHeader = ""
      ∨ resp.contentLength < 0) :
    (getArchive parseURL resp).1.isFail = true ∧ (getArchive parseURL resp).2 = true := by
  by_cases h1 : resp.entityIdHeader = ""
  · simp [getArchive, h1, GetArchiveResult.isFail]
  · cases hp : parseURL resp.entityIdHeader with
    | none => simp [getArchive, h1, hp, GetArchiveResult.isFail]
    | some eid =>
      by_cases h2 : eid.revision = -1
      · simp [getArchive, h1, hp, h2, GetArchiveResult.isFail]
      · by_cases h3 : resp.contentHashHeader = ""
        · simp [getArchive, h1, hp, h2, h3, GetArchiveResult.isFail]
        · have h4 : resp.contentLength < 0 := by
            rcases hbad with h | h | ⟨eid2, he2, hrev2⟩ | h | h
            · exact absurd h h1
            · rw [hp] at h; cases h
            · rw [hp] at he2
              injection he2 with he2
              subst he2
              exact absurd hrev2 h2
            · exact absurd h h3
            · exact h
          simp [getArchive, h1, hp, h2, h3, h4, GetArchiveResult.isFail]

/-- Witness for C6: a response with unknown content length (-1) fails
with the body closed. -/
theorem getArchive_rejects_bad_headers_witness :
    (getArchive exParse exRespNoLen).1.isFail = true ∧
    (getArchive exParse exRespNoLen).2 = true :=
  getArchive_rejects_bad_headers exParse exRespNoLen
    (Or.inr (Or.inr (Or.inr (Or.inr (by decide)))))

/-- C9 counterexample: with a negative (omitted) revision, GetResource
does not fetch the latest revision from the revisionless sub-path: it
issues no request at all and returns an error instead. -/
theorem getResource_negative_revision_counterexample :
    (getResource "wordpress" "data" (-1) { contentHashHeader := "abc" }).requests = [] ∧
    (getResource "wordpress" "data" (-1) { contentHashHeader := "abc" }).result =
      Except.error "revision must be a non-negative integer" := by
  constructor <;> simp [getResource]

/-- C9 as amended: GetResource rejects a negative revision with an
error before issuing any request; a non-negative revision always adds
an explicit revision path segment to the resource sub-path; and a 200
response lacking the content-hash header is an error on which the open
body is closed, while a present hash is returned with the body still
open. -/
theorem getResource_revision_handling (idPath name : String) (revision : Int)
    (resp : ResourceResponse) :
    (revision < 0 →
      getResource idPath name revision resp =
        { result := Except.error "revision must be a non-negative integer",
          requests := [], bodyClosed := false }) ∧
    (0 ≤ revision →
      (getResource idPath name revision resp).requests =
        ["/" ++ idPath ++ "/resource/" ++ name ++ "/" ++ toString revision] ∧
      (resp.contentHashHeader = "" →
        (getResource idPath name revision resp).result =
          Except.error "no hash header found in response" ∧
        (getResource idPath name revision resp).bodyClosed = true) ∧
      (resp.contentHashHeader ≠ "" →
        (getResource idPath name revision resp).result = Except.ok resp.contentHashHeader ∧
        (getResource idPath name revision resp).bodyClosed = false)) := by
  constructor
  · intro h
    simp [getResource, h]
  · intro h
    by_cases hh : resp.contentHashHeader = "" <;>
      simp [getResource, h, hh, not_lt.mpr h, String.append_assoc]

/-- Witness for C9 as amended, at revision 2 of a resource whose
response carries no content-hash header. -/
theorem getResource_revision_handling_witness :
    (getResource "wordpress" "data" 2 { contentHashHeader := "" }).requests =
      ["/wordpress/resource/data/2"] ∧
    (getResource "wordpress" "data" 2 { contentHashHeader := "" }).result =
      Except.error "no hash header found in response" ∧
    (getResource "wordpress" "data" 2 { contentHashHeader := "" }).bodyClosed = true := by
  have h := (getResource_revision_handling "wordpress" "data" 2 { contentHashHeader := "" }).2
    (by decide)
  exact ⟨h.1, (h.2.1 rfl).1, (h.2.1 rfl).2⟩

/-- C4: resuming a multipart upload with a non-empty uploadId over the
threshold fails with the distinguished ErrUploadNotFound cause when
the session GET answers not-found, and fails with a protocol error
before any part is uploaded when the returned session id differs from
the requested one. -/
theorem resumeUpload_session_errors (minSize : Int) (uploadId : String) (size : Int)
    (env : MultipartEnv) (hth : minSize ≤ size) (hid : uploadId ≠ "") :
    (env.sessionResp = Except.error StoreErr.notFound →
      resumeUploadResource minSize uploadId size env =
        (Except.error UploadError.uploadNotFound, [])) ∧
    (∀ resp, env.sessionResp = Except.ok resp → resp.uploadId ≠ uploadId →
      resumeUploadResource minSize uploadId size env =
        (Except.error (UploadError.uploadIdMismatch resp.uploadId uploadId), []) ∧
      (resumeUploadResource minSize uploadId size env).2.countP Event.isPartUpload = 0) := by
  unfold resumeUploadResource uploadMultipartResource
  rw [if_pos hth, if_neg hid]
  constructor
  · intro h
    rw [h]
  · intro resp h hmis
    rw [h]
    simp [hmis]

/-- Witness for C4: a resume of upload id "abc" against a store that
answers not-found, and against a store that answers with session id
"zzz". -/
theorem resumeUpload_session_errors_witness :
    resumeUploadResource 5 "abc" 100 exEnvNotFound =
      (Except.error UploadError.uploadNotFound, []) ∧
    resumeUploadResource 5 "abc" 100 exEnvWrongId =
      (Except.error (UploadError.uploadIdMismatch "zzz" "abc"), []) :=
  ⟨(resumeUpload_session_errors 5 "abc" 100 exEnvNotFound (by decide) (by decide)).1 rfl,
   ((resumeUpload_session_errors 5 "abc" 100 exEnvWrongId (by decide) (by decide)).2
     _ rfl (by decide)).1⟩

/-- C5: a part the resumed session records as complete is checked
against the running offset: a differing recorded offset is a protocol
error that stops the upload with no network request for that part,
while a matching one skips the upload (the loop adds only a
Transferred notification at the advanced offset and continues with the
offset advanced by the recorded part size). -/
theorem resumed_complete_part_skip (i : Nat) (off : Int) (info : UploadInfo) (part : Part)
    (hp : info.resp.parts[i]? = some part) (hc : part.complete = true)
    (hoff : off < info.size) :
    (part.offset ≠ off →
      choosePartRange i off info =
        ChooseResult.err ("offset mismatch at part " ++ toString i ++
          " (want " ++ toString off ++ " got " ++ toString part.offset ++ ")") ∧
      ∀ upr parts fuel,
        (uploadPartsLoop upr info (fuel + 1) i off parts).2.countP Event.isPartUpload = 0) ∧
    (part.offset = off →
      choosePartRange i off info = ChooseResult.alreadyUploaded off (off + part.size) ∧
      ∀ upr parts fuel,
        uploadPartsLoop upr info (fuel + 1) i off parts =
          ((uploadPartsLoop upr info fuel (i + 1) (off + part.size) parts).1,
            Event.transferred (off + part.size) ::
              (uploadPartsLoop upr info fuel (i + 1) (off + part.size) parts).2)) := by
  have hnle : ¬ info.size ≤ off := not_le.mpr hoff
  constructor
  · intro hmis
    have hch : choosePartRange i off info =
        ChooseResult.err ("offset mismatch at part " ++ toString i ++
          " (want " ++ toString off ++ " got " ++ toString part.offset ++ ")") := by
      unfold choosePartRange
      rw [if_neg hnle, hp]
      simp [hc, hmis]
    refine ⟨hch, ?_⟩
    intro upr parts fuel
    simp only [uploadPartsLoop, if_neg hnle, hch]
    rfl
  · intro hmatch
    have hch : choosePartRange i off info =
        ChooseResult.alreadyUploaded off (off + part.size) := by
      unfold choosePartRange
      rw [if_neg hnle, hp]
      simp [hc, hmatch]
    refine ⟨hch, ?_⟩
    intro upr parts fuel
    simp only [uploadPartsLoop, if_neg hnle, hch]

/-- Witness for C5: the session records part 0 complete at offset 0
with size 7, so the loop skips it, reports Transferred 7 and moves on
to part 1. -/
theorem resumed_complete_part_skip_witness :
    choosePartRange 0 0 exInfoSkip = ChooseResult.alreadyUploaded 0 7 ∧
    uploadPartsLoop (fun _ => Except.ok "hh") exInfoSkip 2 0 0 exInfoSkip.resp.parts =
      ((uploadPartsLoop (fun _ => Except.ok "hh") exInfoSkip 1 1 7 exInfoSkip.resp.parts).1,
        Event.transferred 7 ::
          (uploadPartsLoop (fun _ => Except.ok "hh") exInfoSkip 1 1 7
            exInfoSkip.resp.parts).2) := by
  have h := (resumed_complete_part_skip 0 0 exInfoSkip
      { hash := "c", offset := 0, size := 7, complete := true }
      (by decide) (by decide) (by decide)).2 rfl
  exact ⟨by simpa using h.1, by simpa using h.2 (fun _ => Except.ok "hh") exInfoSkip.resp.parts 1⟩

/-- C1: for a part the session does not record complete, the range
starting at the running offset follows the look-ahead policy: when the
next completed part is exactly the following index, the gap up to its
offset is the exact range, rejected as a part-sizing error (stopping
the upload with no network request for that part) when it falls
outside [MinPartSize, MaxPartSize]; when the next completed part is
further away at index k with offset beyond the running offset, the
range size is the floor of the gap divided by (k - i); with no later
completed part the range size is the preferred part size clamped to
the remaining total. -/
theorem choosePartRange_gap_policy (i : Nat) (off : Int) (info : UploadInfo)
    (hoff : off < info.size)
    (hnc : partMarkedComplete info.resp.parts i = false) :
    (∀ noff, findNextUploaded (info.resp.parts.drop (i + 1)) (i + 1) = some (i + 1, noff) →
      (noff - off < info.resp.minPartSize →
        choosePartRange i off info = ChooseResult.err "remaining part is too small") ∧
      (info.resp.minPartSize ≤ noff - off → info.resp.maxPartSize < noff - off →
        choosePartRange i off info = ChooseResult.err "remaining part is too large") ∧
      (info.resp.minPartSize ≤ noff - off → noff - off ≤ info.resp.maxPartSize →
        choosePartRange i off info = ChooseResult.range off noff)) ∧
    (∀ k noff, findNextUploaded (info.resp.parts.drop (i + 1)) (i + 1) = some (k, noff) →
      i + 1 < k → off ≤ noff →
      choosePartRange i off info =
        ChooseResult.range off (off + Int.fdiv (noff - off) ((k : Int) - (i : Int)))) ∧
    (findNextUploaded (info.resp.parts.drop (i + 1)) (i + 1) = none →
      choosePartRange i off info =
        ChooseResult.range off (off + min info.preferredPartSize (info.size - off))) ∧
    (∀ msg, choosePartRange i off info = ChooseResult.err msg →
      ∀ upr parts fuel,
        uploadPartsLoop upr info (fuel + 1) i off parts = (Except.error msg, [])) := by
  have hnle : ¬ info.size ≤ off := not_le.mpr hoff
  have hla : choosePartRange i off info = choosePartRangeLookahead i off info := by
    unfold choosePartRange
    rw [if_neg hnle]
    unfold partMarkedComplete at hnc
    cases hp : info.resp.parts[i]? with
    | none => rfl
    | some part =>
      rw [hp] at hnc
      simp only at hnc
      simp [hnc]
  refine ⟨?_, ?_, ?_, ?_⟩
  · intro noff hfind
    rw [hla]
    refine ⟨?_, ?_, ?_⟩
    · intro hsmall
      simp [choosePartRangeLookahead, hfind, hsmall]
    · intro hmin hmax
      simp [choosePartRangeLookahead, hfind, not_lt.mpr hmin, hmax]
    · intro hmin hmax
      simp [choosePartRangeLookahead, hfind, not_lt.mpr hmin, not_lt.mpr hmax]
  · intro k noff hfind hk hle
    rw [hla]
    have hkne : ¬ (k = i + 1) := by omega
    have hile : i ≤ k := by omega
    have hcast : ((k - i : Nat) : Int) = (k : Int) - (i : Int) := by
      push_cast [hile]
      ring
    have hnum : (0 : Int) ≤ noff - off := by omega
    have hdpos : (0 : Int) ≤ (k : Int) - (i : Int) := by
      have : (i : Int) ≤ (k : Int) := by exact_mod_cast hile
      omega
    have htd : Int.tdiv (noff - off) ((k : Int) - (i : Int)) =
        Int.fdiv (noff - off) ((k : Int) - (i : Int)) := by
      rw [Int.tdiv_eq_ediv hnum hdpos, Int.fdiv_eq_ediv _ hdpos]
    simp only [choosePartRangeLookahead, hfind, if_neg hkne]
    rw [hcast, htd]
  · intro hfind
    rw [hla]
    have hminform : (if info.size < off + info.preferredPartSize then info.size
        else off + info.preferredPartSize) =
        off + min info.preferredPartSize (info.size - off) := by
      rcases le_or_lt (off + info.preferredPartSize) info.size with h | h
      · rw [if_neg (not_lt.mpr h), min_eq_left (by omega)]
      · rw [if_pos h, min_eq_right (by omega)]
        omega
    simp only [choosePartRangeLookahead, hfind]
    rw [hminform]
  · intro msg hmsg upr parts fuel
    simp only [uploadPartsLoop, if_neg hnle, hmsg]

/-- Witness for C1: in the resumed session exInfoGap the next
completed part is exactly part 1 at offset 3, the 3-byte gap is below
MinPartSize 10, so choosing the range for part 0 is a part-sizing
error and the loop stops with no network request. -/
theorem choosePartRange_gap_policy_witness :
    choosePartRange 0 0 exInfoGap = ChooseResult.err "remaining part is too small" ∧
    uploadPartsLoop (fun _ => Except.ok "hh") exInfoGap 3 0 0 exInfoGap.resp.parts =
      (Except.error "remaining part is too small", []) := by
  have h := choosePartRange_gap_policy 0 0 exInfoGap (by decide) (by decide)
  have hch := ((h.1 3 (by decide)).1 (by decide))
  exact ⟨hch, h.2.2.2 _ hch (fun _ => Except.ok "hh") exInfoGap.resp.parts 2⟩

/-- C2: the preferred part size is the rounded-up quotient of the
total size by MaxParts (the unique q with MaxParts*(q-1) < size ≤
MaxParts*q); when it exceeds MaxPartSize the upload fails with the
resource-too-big rejection carrying the effective maximum
MaxPartSize * MaxParts in bytes (rendered in decimal GB by the
message) with zero part-upload network events, and otherwise the
preferred part size used for all subsequent part-range decisions is
its maximum with MinPartSize. -/
theorem multipart_preferred_part_size (size : Int) (resp : UploadInfoResponse)
    (hsz : 0 ≤ size) (hmp : 0 < resp.maxParts) :
    ∀ pref, pref = Int.tdiv (size + (resp.maxParts : Int) - 1) (resp.maxParts : Int) →
    ((resp.maxParts : Int) * (pref - 1) < size ∧ size ≤ (resp.maxParts : Int) * pref) ∧
    (resp.maxPartSize < pref →
      multipartPreflight size resp =
        Except.error (UploadError.resourceTooBig (resp.maxPartSize * (resp.maxParts : Int))) ∧
      ∀ uploadId env, env.sessionResp = Except.ok resp →
        (uploadId = "" ∨ resp.uploadId = uploadId) →
        (uploadMultipartResource uploadId size env).1 =
          Except.error (UploadError.resourceTooBig (resp.maxPartSize * (resp.maxParts : Int))) ∧
        (uploadMultipartResource uploadId size env).2.countP Event.isPartUpload = 0) ∧
    (pref ≤ resp.maxPartSize →
      multipartPreflight size resp =
        Except.ok { size := size, resp := resp, preferredPartSize := max pref resp.minPartSize } ∧
      ∀ env, uploadMultipartBody size resp env =
        (Except.mapError UploadError.other
          (uploadParts env.upr env.finishResp env.postResp
            { size := size, resp := resp, preferredPartSize := max pref resp.minPartSize }
            env.fuel).1,
         Event.started resp.uploadId ::
           (uploadParts env.upr env.finishResp env.postResp
            { size := size, resp := resp, preferredPartSize := max pref resp.minPartSize }
            env.fuel).2)) := by
  intro pref hpref
  have hM : (0 : Int) < (resp.maxParts : Int) := by exact_mod_cast hmp
  refine ⟨?_, ?_, ?_⟩
  · subst hpref
    have h0 : (0 : Int) ≤ size + (resp.maxParts : Int) - 1 := by omega
    rw [Int.tdiv_eq_ediv h0 (le_of_lt hM)]
    have h1 := Int.ediv_add_emod (size + (resp.maxParts : Int) - 1) (resp.maxParts : Int)
    have h2 := Int.emod_nonneg (size + (resp.maxParts : Int) - 1)
      (by omega : (resp.maxParts : Int) ≠ 0)
    have h3 := Int.emod_lt_of_pos (size + (resp.maxParts : Int) - 1) hM
    have hexp : (resp.maxParts : Int) *
        ((size + (resp.maxParts : Int) - 1) / (resp.maxParts : Int) - 1) =
        (resp.maxParts : Int) * ((size + (resp.maxParts : Int) - 1) / (resp.maxParts : Int)) -
          (resp.maxParts : Int) := by
      ring
    constructor
    · linarith [h1, h2, h3, hexp]
    · linarith [h1, h2, h3]
  · intro hbig
    have hpre : multipartPreflight size resp =
        Except.error (UploadError.resourceTooBig (resp.maxPartSize * (resp.maxParts : Int))) := by
      simp only [multipartPreflight, ← hpref]
      rw [if_pos hbig]
    refine ⟨hpre, ?_⟩
    intro uploadId env hsess hid
    have hmain : uploadMultipartResource uploadId size env = uploadMultipartBody size resp env := by
      rcases eq_or_ne uploadId "" with hu | hu
      · simp [uploadMultipartResource, hu, hsess]
      · have hrid : resp.uploadId = uploadId := hid.resolve_left hu
        simp [uploadMultipartResource, hu, hsess, hrid]
    have hbody2 : uploadMultipartBody size resp env =
        (Except.error (UploadError.resourceTooBig (resp.maxPartSize * (resp.maxParts : Int))),
          [Event.started resp.uploadId]) := by
      simp only [uploadMultipartBody, hpre]
    rw [hmain, hbody2]
    exact ⟨rfl, rfl⟩
  · intro hle
    have hval : (if pref < resp.minPartSize then resp.minPartSize else pref) =
        max pref resp.minPartSize := by
      rcases lt_or_ge pref resp.minPartSize with h | h
      · rw [if_pos h, max_eq_right (le_of_lt h)]
      · rw [if_neg (not_lt.mpr h), max_eq_left h]
    have hpre : multipartPreflight size resp =
        Except.ok { size := size, resp := resp, preferredPartSize := max pref resp.minPartSize } := by
      simp only [multipartPreflight, ← hpref]
      rw [if_neg (not_lt.mpr hle), hval]
    refine ⟨hpre, ?_⟩
    intro env
    simp only [uploadMultipartBody, hpre]

/-- Witness for C2: a 100-byte payload against session limits
MaxParts = 10, MaxPartSize = 5 has preferred part size
ceil(100 / 10) = 10 > 5 and is rejected as too big, allowed maximum
50 bytes, with zero part-upload events. -/
theorem multipart_preferred_part_size_witness :
    multipartPreflight 100 exRespBig =
      Except.error (UploadError.resourceTooBig 50) ∧
    (uploadMultipartResource "" 100 exEnvBig).1 =
      Except.error (UploadError.resourceTooBig 50) ∧
    (uploadMultipartResource "" 100 exEnvBig).2.countP Event.isPartUpload = 0 := by
  have h := (multipart_preferred_part_size 100 exRespBig (by decide) (by decide)
      10 (by decide)).2.1 (by decide)
  have h2 := h.2 "" exEnvBig rfl (Or.inl rfl)
  exact ⟨by simpa using h.1, by simpa using h2.1, by simpa using h2.2⟩

/-- The retry loop makes at most one attempt per available outcome. -/
theorem uploadPartAttemptLoop_attempts_le (hash : String) :
    ∀ (l : List AttemptOutcome) (last : Option String),
      (uploadPartAttemptLoop hash l last).2.2 ≤ l.length
  | [], last => by simp [uploadPartAttemptLoop]
  | o :: rest, last => by
    cases o with
    | success => simp [uploadPartAttemptLoop]
    | apiError m =>
      simp only [uploadPartAttemptLoop, List.length_cons]
      omega
    | softError m =>
      have ih := uploadPartAttemptLoop_attempts_le hash rest (some m)
      simp only [uploadPartAttemptLoop, List.length_cons]
      omega

/-- The progress.Error notifications of the retry loop are exactly the
soft-error messages of the attempts actually made, in order. -/
theorem uploadPartAttemptLoop_errors_eq (hash : String) :
    ∀ (l : List AttemptOutcome) (last : Option String),
      (uploadPartAttemptLoop hash l last).2.1 =
        (l.take (uploadPartAttemptLoop hash l last).2.2).filterMap AttemptOutcome.softMsg
  | [], last => by simp [uploadPartAttemptLoop]
  | o :: rest, last => by
    cases o with
    | success => simp [uploadPartAttemptLoop, AttemptOutcome.softMsg]
    | apiError m => simp [uploadPartAttemptLoop, AttemptOutcome.softMsg]
    | softError m =>
      have ih := uploadPartAttemptLoop_errors_eq hash rest (some m)
      simp only [uploadPartAttemptLoop, List.take_succ_cons, List.filterMap_cons,
        AttemptOutcome.softMsg]
      rw [ih]

/-- A definitive API error after only soft errors stops the retry loop
at once with that error. -/
theorem uploadPartAttemptLoop_api_abort (hash : String) :
    ∀ (l1 l2 : List AttemptOutcome) (m : String) (last : Option String),
      (∀ o ∈ l1, o.isSoft = true) →
      (uploadPartAttemptLoop hash (l1 ++ AttemptOutcome.apiError m :: l2) last).1 =
          Except.error m ∧
      (uploadPartAttemptLoop hash (l1 ++ AttemptOutcome.apiError m :: l2) last).2.2 =
          l1.length + 1
  | [], l2, m, last, _ => by simp [uploadPartAttemptLoop]
  | o :: t, l2, m, last, hs => by
    have ho : o.isSoft = true := hs o (List.mem_cons_self o t)
    cases o with
    | success => simp [AttemptOutcome.isSoft] at ho
    | apiError m2 => simp [AttemptOutcome.isSoft] at ho
    | softError m2 =>
      have ih := uploadPartAttemptLoop_api_abort hash t l2 m (some m2)
        (fun o ho2 => hs o (List.mem_cons_of_mem _ ho2))
      simp only [List.cons_append, List.append_eq, uploadPartAttemptLoop, List.length_cons]
      exact ⟨ih.1, by rw [ih.2]⟩

/-- When every attempt fails softly, the retry loop returns the last
soft error wrapped in the too-many-attempts message. -/
theorem uploadPartAttemptLoop_all_soft (hash : String) :
    ∀ (l : List AttemptOutcome) (m : String) (last : Option String),
      (∀ o ∈ l, o.isSoft = true) →
      (uploadPartAttemptLoop hash (l ++ [AttemptOutcome.softError m]) last).1 =
        Except.error ("too many attempts; last error: " ++ m)
  | [], m, last, _ => by simp [uploadPartAttemptLoop]
  | o :: t, m, last, hs => by
    have ho : o.isSoft = true := hs o (List.mem_cons_self o t)
    cases o with
    | success => simp [AttemptOutcome.isSoft] at ho
    | apiError m2 => simp [AttemptOutcome.isSoft] at ho
    | softError m2 =>
      have ih := uploadPartAttemptLoop_all_soft hash t m (some m2)
        (fun o ho2 => hs o (List.mem_cons_of_mem _ ho2))
      simp only [List.cons_append, List.append_eq, uploadPartAttemptLoop]
      exact ih

/-- C3: a single part is transmitted at most 10 times; an error
classified as a structured store API error aborts at once, so the
attempt after the last soft error is the final one, and no progress
Error notification is emitted for it (the Error notifications are
exactly the soft-error messages of the attempts made, one each, in
order); and when all 10 attempts fail softly the result wraps the last
error in the too-many-attempts message. -/
theorem uploadPart_retry_policy (hash : String) (outcomes : Nat → AttemptOutcome) :
    (uploadPartModel hash outcomes).2.2 ≤ 10 ∧
    (uploadPartModel hash outcomes).2.1 =
      (((List.range 10).map outcomes).take (uploadPartModel hash outcomes).2.2).filterMap
        AttemptOutcome.softMsg ∧
    (∀ k m, k < 10 → outcomes k = AttemptOutcome.apiError m →
      (∀ j, j < k → (outcomes j).isSoft = true) →
      (uploadPartModel hash outcomes).1 = Except.error m ∧
      (uploadPartModel hash outcomes).2.2 = k + 1) ∧
    (∀ m, (∀ j, j < 10 → (outcomes j).isSoft = true) →
      outcomes 9 = AttemptOutcome.softError m →
      (uploadPartModel hash outcomes).1 =
        Except.error ("too many attempts; last error: " ++ m)) := by
  refine ⟨?_, ?_, ?_, ?_⟩
  · have h := uploadPartAttemptLoop_attempts_le hash ((List.range 10).map outcomes) none
    simpa [uploadPartModel] using h
  · exact uploadPartAttemptLoop_errors_eq hash ((List.range 10).map outcomes) none
  · intro k m hk hout hsoft
    have hklen : k < ((List.range 10).map outcomes).length := by
      simpa using hk
    have hgetk : ((List.range 10).map outcomes)[k] = outcomes k := by
      simp
    have hdec : (List.range 10).map outcomes =
        ((List.range 10).map outcomes).take k ++ AttemptOutcome.apiError m ::
          ((List.range 10).map outcomes).drop (k + 1) := by
      conv_lhs => rw [← List.take_append_drop k ((List.range 10).map outcomes)]
      rw [List.drop_eq_getElem_cons hklen, hgetk, hout]
    have htake : ((List.range 10).map outcomes).take k = (List.range k).map outcomes := by
      rw [← List.map_take, List.take_range, min_eq_left (by omega)]
    have hsofts : ∀ o ∈ ((List.range 10).map outcomes).take k, o.isSoft = true := by
      rw [htake]
      intro o ho
      rcases List.mem_map.mp ho with ⟨j, hj, rfl⟩
      exact hsoft j (List.mem_range.mp hj)
    have habort := uploadPartAttemptLoop_api_abort hash
      (((List.range 10).map outcomes).take k)
      (((List.range 10).map outcomes).drop (k + 1)) m none hsofts
    constructor
    · show (uploadPartAttemptLoop hash ((List.range 10).map outcomes) none).1 = Except.error m
      rw [hdec]
      exact habort.1
    · show (uploadPartAttemptLoop hash ((List.range 10).map outcomes) none).2.2 = k + 1
      rw [hdec, habort.2, htake]
      simp
  · intro m hall h9
    have hdec : (List.range 10).map outcomes =
        ((List.range 9).map outcomes) ++ [AttemptOutcome.softError m] := by
      rw [show (10 : Nat) = 9 + 1 from rfl, List.range_succ, List.map_append]
      simp [h9]
    show (uploadPartAttemptLoop hash ((List.range 10).map outcomes) none).1 =
      Except.error ("too many attempts; last error: " ++ m)
    rw [hdec]
    exact uploadPartAttemptLoop_all_soft hash ((List.range 9).map outcomes) m none
      (fun o ho => by
        rcases List.mem_map.mp ho with ⟨j, hj, rfl⟩
        exact hall j (by have := List.mem_range.mp hj; omega))

/-- Witness for C3: one soft failure then a definitive API rejection
gives exactly two attempts, the error of the rejection, and one
progress Error notification carrying the soft message. -/
theorem uploadPart_retry_policy_witness :
    (uploadPartModel "h" exOutcomesApi).1 = Except.error "denied" ∧
    (uploadPartModel "h" exOutcomesApi).2.2 = 2 ∧
    (uploadPartModel "h" exOutcomesApi).2.1 =
      (((List.range 10).map exOutcomesApi).take
        (uploadPartModel "h" exOutcomesApi).2.2).filterMap AttemptOutcome.softMsg := by
  have h := uploadPart_retry_policy "h" exOutcomesApi
  have habort := h.2.2.1 1 "denied" (by decide) (by decide)
    (fun j hj => by
      have : j = 0 := by omega
      subst this
      decide)
  exact ⟨habort.1, habort.2, h.2.1⟩

end Charmrepo
